import Mathlib

/-!
Verification of the red-cogs repository: the invite-attribution tracker
(src/referralaccumulation/referralaccumulation.py) and the weighted lottery
draw engine (src/lottery/lottery.py).

Python dicts are modelled as association lists with dict-style update
(replace in place if the key is present, append otherwise).  Discord users,
guild members, invites, reactions and message fetches are modelled by plain
records; the platform's responses (message fetch outcome, invite-list fetch
outcome, the index chosen by random.choice) are passed in as explicit
parameters.  Embed/string rendering, file logging and the asyncio sleep are
out of scope (the spec places them outside the core), so the functions below
return the store transition plus a symbolic outcome describing what was
announced.
-/

namespace RedCogs

/-- Dict lookup: first pair whose key matches, as python dict.get. -/
def lookupKey {κ α : Type} [BEq κ] (l : List (κ × α)) (k : κ) : Option α :=
  (l.find? (fun p => p.1 == k)).map (fun p => p.2)

/-- Dict assignment d[k] = v: replace in place when present, else append. -/
def setKey {κ α : Type} [BEq κ] (l : List (κ × α)) (k : κ) (v : α) : List (κ × α) :=
  if l.any (fun p => p.1 == k) then
    l.map (fun p => if p.1 == k then (k, v) else p)
  else
    l ++ [(k, v)]

/-- Dict d.pop(k, None): drop the entry with key k. -/
def eraseKey {κ α : Type} [BEq κ] (l : List (κ × α)) (k : κ) : List (κ × α) :=
  l.filter (fun p => !(p.1 == k))

/-- A discord user as seen through a reaction or a member-join event. -/
structure User where
  id : Nat
  bot : Bool
  deriving DecidableEq

/-- A guild member, carrying the optional joined_at timestamp. -/
structure Member where
  id : Nat
  joined_at : Option Int
  deriving DecidableEq

/-- The guild membership visible through guild.get_member. -/
structure Guild where
  members : List Member
  deriving DecidableEq

/-- guild.get_member(uid). -/
def getMember (g : Guild) (uid : Nat) : Option Member :=
  g.members.find? (fun m => m.id == uid)

/-- The join timestamp of an invited member, when resolvable:
guild.get_member followed by the joined_at attribute. -/
def joinTime (g : Guild) (uid : Nat) : Option Int :=
  (getMember g uid).bind (fun m => m.joined_at)

/-- An invite as returned by guild.invites(): code and use count. -/
structure Invite where
  code : String
  uses : Nat
  deriving DecidableEq

/-! ## ReferralAccumulation (src/referralaccumulation/referralaccumulation.py) -/

/-- Per-guild durable state of the referral cog: invites maps
user_id to invite_code, referrals maps invited_user_id to inviter_user_id,
points maps user_id to accumulated points. -/
structure RefState where
  invites : List (Nat × String)
  referrals : List (Nat × Nat)
  points : List (Nat × Nat)
  deriving DecidableEq

/-- Outcome of the guild.invites() call inside on_member_join. -/
inductive InviteFetch
  | forbidden
  | ok (invites : List Invite)
  deriving DecidableEq

/-- The invite-diff loop of on_member_join (lines 66-71): the first invite,
in platform order, whose use count strictly exceeds the cached count, a code
absent from the cache counting as 0. -/
def find_used_invite (new_invites : List Invite) (cache : List (String × Nat)) :
    Option Invite :=
  new_invites.find? (fun inv => decide ((lookupKey cache inv.code).getD 0 < inv.uses))

/-- Cache replacement (line 74): the fresh code-to-uses mapping. -/
def refresh_cache (new_invites : List Invite) : List (String × Nat) :=
  new_invites.map (fun inv => (inv.code, inv.uses))

/-- on_member_join (lines 50-93).  Inputs: the joining member, the result of
guild.invites(), the guild's in-memory invite cache and the durable referral
state.  Output: the new cache and the new referral state.  The python
`if inviter_id:` check treats the id 0 as falsy, modelled by the == 0 test. -/
def on_member_join (member : User) (fetch : InviteFetch)
    (cache : List (String × Nat)) (st : RefState) :
    List (String × Nat) × RefState :=
  if member.bot then (cache, st)
  else
    match fetch with
    | .forbidden => (cache, st)
    | .ok new_invites =>
      let used? := find_used_invite new_invites cache
      let cache' := refresh_cache new_invites
      match used? with
      | none => (cache', st)
      | some used =>
        match st.invites.find? (fun p => p.2 == used.code) with
        | none => (cache', st)
        | some p =>
          if p.1 == 0 then (cache', st)
          else
            (cache',
             { st with
               referrals := setKey st.referrals member.id p.1,
               points := setKey st.points p.1
                 ((lookupKey st.points p.1).getD 0 + 1) })

/-! ## Lottery (src/lottery/lottery.py) -/

/-- The recorded draw_results dict (lines 334-341).  The winner_name string
rendering is outside the model. -/
structure DrawResults where
  winner_id : Nat
  total_participants : Nat
  total_entries : Nat
  entries_breakdown : List (Nat × Nat)
  draw_timestamp : Int
  deriving DecidableEq

/-- One lottery record (lines 163-173).  Records in the active store always
carry draw_results = none; the field is populated on completion. -/
structure LotteryData where
  message_id : Nat
  channel_id : Nat
  emoji : String
  use_referrals : Bool
  start_time : Int
  end_time : Int
  starter_id : Nat
  name : String
  description : String
  draw_results : Option DrawResults
  deriving DecidableEq

/-- The two per-guild lottery buckets of the config store. -/
structure GuildStore where
  active : List (String × LotteryData)
  completed : List (String × LotteryData)
  deriving DecidableEq

/-- A reaction on the lottery message: its emoji and the users who reacted. -/
structure Reaction where
  emoji : String
  users : List User
  deriving DecidableEq

/-- Outcome of resolving the stored channel and fetching the stored message:
the channel may no longer resolve, and fetch_message may raise NotFound or
Forbidden. -/
inductive MsgFetch
  | noChannel
  | notFound
  | forbidden
  | ok (reactions : List Reaction)
  deriving DecidableEq

/-- What _execute_draw announced, as a symbolic outcome.  noLottery and
noChannel are the early returns; aborted is the swallowed NotFound/Forbidden
(or the unreachable empty-pool IndexError caught by the generic handler);
noReaction and noHumans are the zero-participant announcements. -/
inductive DrawOutcome
  | noLottery
  | noChannel
  | noReaction
  | noHumans
  | winner (dr : DrawResults)
  | aborted
  deriving DecidableEq

/-- Bonus-entry value for one participant when referrals are enabled
(lines 210-229): 1 + qualifying referral count integer-divided by the
referrals_per_entry rate. -/
def countQualifyingReferrals (g : Guild) (refs : List (Nat × Nat))
    (uid : Nat) (start : Int) : Nat :=
  refs.countP (fun e =>
    e.2 == uid &&
      (match getMember g e.1 with
       | some m =>
         match m.joined_at with
         | some t => decide (start ≤ t)
         | none => false
       | none => false))

/-- Final entry count of one participant id when referrals are active. -/
def entry_value (g : Guild) (refs : List (Nat × Nat)) (rpe : Nat)
    (start : Int) (uid : Nat) : Nat :=
  1 + countQualifyingReferrals g refs uid start / rpe

/-- _calculate_entries (lines 187-231).  cog? is the referrals mapping read
from the referral cog when the cog lookup succeeded, none when it did not. -/
def calculate_entries (g : Guild) (participants : List User) (start_time : Int)
    (use_referrals : Bool) (cog? : Option (List (Nat × Nat))) (rpe : Nat) :
    List (Nat × Nat) :=
  if !use_referrals then
    participants.map (fun u => (u.id, 1))
  else
    match cog? with
    | none => participants.map (fun u => (u.id, 1))
    | some refs =>
      participants.map (fun u => (u.id, entry_value g refs rpe start_time u.id))

/-- entries_map.get(user.id, 1). -/
def entriesOf (entries : List (Nat × Nat)) (u : User) : Nat :=
  (lookupKey entries u.id).getD 1

/-- The weighted pool (lines 324-327): each participant repeated
entriesOf-many times, in participant order. -/
def weighted_pool (entries : List (Nat × Nat)) : List User → List User
  | [] => []
  | u :: rest => List.replicate (entriesOf entries u) u ++ weighted_pool entries rest

/-- reaction.users() filtered to non-bots (lines 297-300). -/
def draw_participants (rxn : Reaction) : List User :=
  rxn.users.filter (fun u => !u.bot)

/-- The entries map a draw computes for a fetched reaction. -/
def draw_entries (g : Guild) (data : LotteryData)
    (cog? : Option (List (Nat × Nat))) (rpe : Nat) (rxn : Reaction) :
    List (Nat × Nat) :=
  calculate_entries g (draw_participants rxn) data.start_time data.use_referrals cog? rpe

/-- The weighted pool a draw builds for a fetched reaction. -/
def draw_pool (g : Guild) (data : LotteryData)
    (cog? : Option (List (Nat × Nat))) (rpe : Nat) (rxn : Reaction) : List User :=
  weighted_pool (draw_entries g data cog? rpe rxn) (draw_participants rxn)

/-- _move_to_completed (lines 454-462): the name is popped from the active
bucket unconditionally; the record is inserted into the completed bucket only
when both the popped record and a draw_results value are present. -/
def move_to_completed (store : GuildStore) (name : String)
    (dr? : Option DrawResults) : GuildStore :=
  match lookupKey store.active name, dr? with
  | some data, some dr =>
    { active := eraseKey store.active name,
      completed := setKey store.completed name { data with draw_results := some dr } }
  | _, _ => { store with active := eraseKey store.active name }

/-- _execute_draw (lines 251-393).  fetch stands for the channel resolution
plus fetch_message; cog? for the referral cog's referrals mapping (none when
the cog lookup failed); rpe for the guild's referrals_per_entry; pick for the
index random.choice takes into the weighted pool; now for the draw timestamp.
The entries_breakdown uses entriesOf where python indexes entries_map
directly; the key is always present there, so the two agree. -/
def execute_draw (store : GuildStore) (name : String) (is_rerun : Bool)
    (fetch : MsgFetch) (cog? : Option (List (Nat × Nat))) (g : Guild)
    (rpe : Nat) (pick : Nat) (now : Int) : GuildStore × DrawOutcome :=
  match (if is_rerun then lookupKey store.completed name else lookupKey store.active name) with
  | none => (store, .noLottery)
  | some data =>
    match fetch with
    | .noChannel => (store, .noChannel)
    | .notFound => (store, .aborted)
    | .forbidden => (store, .aborted)
    | .ok reactions =>
      match reactions.find? (fun r => r.emoji == data.emoji) with
      | none =>
        if is_rerun then (store, .noReaction)
        else (move_to_completed store name none, .noReaction)
      | some rxn =>
        let participants := draw_participants rxn
        if participants.isEmpty then
          if is_rerun then (store, .noHumans)
          else (move_to_completed store name none, .noHumans)
        else
          let entries := draw_entries g data cog? rpe rxn
          let pool := draw_pool g data cog? rpe rxn
          if pool.isEmpty then (store, .aborted)
          else
            let winner := pool.getD (pick % pool.length) ⟨0, false⟩
            let dr : DrawResults :=
              { winner_id := winner.id,
                total_participants := participants.length,
                total_entries := pool.length,
                entries_breakdown := participants.map (fun u => (u.id, entriesOf entries u)),
                draw_timestamp := now }
            if is_rerun then (store, .winner dr)
            else (move_to_completed store name (some dr), .winner dr)

/-- Outcome of the channel.send posting the solicitation embed. -/
inductive PostResult
  | forbidden
  | httpError
  | ok (message_id : Nat)
  deriving DecidableEq

/-- Outcome of the lottery creation command. -/
inductive CreateOutcome
  | badDuration
  | duplicateName
  | postForbidden
  | postFailed
  | created
  deriving DecidableEq

/-- The lottery command (lines 78-181) up to scheduling: validates the
duration and name uniqueness (completed checked first, as in line 115),
posts the solicitation message, stores the record in the active bucket.
The draw is scheduled only on the created outcome. -/
def create_lottery (store : GuildStore) (channel_id : Nat) (duration : Int)
    (use_referrals : Bool) (name : String) (emoji : String)
    (description : String) (starter_id : Nat) (now : Int)
    (post : PostResult) : GuildStore × CreateOutcome :=
  if duration ≤ 0 then (store, .badDuration)
  else if (lookupKey store.completed name).isSome
       || (lookupKey store.active name).isSome then
    (store, .duplicateName)
  else
    match post with
    | .forbidden => (store, .postForbidden)
    | .httpError => (store, .postFailed)
    | .ok mid =>
      ({ store with
         active := setKey store.active name
           { message_id := mid, channel_id := channel_id, emoji := emoji,
             use_referrals := use_referrals, start_time := now,
             end_time := now + duration * 60, starter_id := starter_id,
             name := name, description := description, draw_results := none } },
       .created)

/-- Outcome of the rerunlottery command. -/
inductive RerunOutcome
  | notFoundMsg
  | ran (o : DrawOutcome)
  deriving DecidableEq

/-- rerun_lottery (lines 464-479): rejected with a not-found message unless
the name is in the completed bucket; otherwise _execute_draw with
is_rerun = true. -/
def rerun_lottery (store : GuildStore) (name : String) (fetch : MsgFetch)
    (cog? : Option (List (Nat × Nat))) (g : Guild) (rpe : Nat) (pick : Nat)
    (now : Int) : GuildStore × RerunOutcome :=
  if (lookupKey store.completed name).isNone then (store, .notFoundMsg)
  else
    let r := execute_draw store name true fetch cog? g rpe pick now
    (r.1, .ran r.2)

/-! ## Cog registry -/

/-- bot.get_cog: lookup of a loaded cog by its registered class name. -/
def get_cog {α : Type} (loaded : List (String × α)) (n : String) : Option α :=
  lookupKey loaded n

/-- The name _get_referral_cog asks the bot for (lottery.py line 185). -/
def referralLookupName : String := "ReferralSystem"

/-- _get_referral_cog (lines 183-185). -/
def get_referral_cog {α : Type} (loaded : List (String × α)) : Option α :=
  get_cog loaded referralLookupName

/-- Class name of the lottery cog (lottery.py line 11). -/
def lotteryCogName : String := "Lottery"

/-- Class name of the referral cog (referralaccumulation.py line 7). -/
def referralCogName : String := "ReferralAccumulation"

/-- Class name of the join tracker cog (jointracker.py line 6). -/
def joinTrackerCogName : String := "DailyJoinsTracker"

/-- _calculate_entries as reached from a draw: the cog argument is whatever
_get_referral_cog finds in the registry of loaded cogs. -/
def calculate_entries_with_registry (loaded : List (String × List (Nat × Nat)))
    (g : Guild) (participants : List User) (start_time : Int)
    (use_referrals : Bool) (rpe : Nat) : List (Nat × Nat) :=
  calculate_entries g participants start_time use_referrals
    (get_referral_cog loaded) rpe

/-! ## Association-list lemmas -/

theorem lookup_map_update {κ α : Type} [BEq κ] [LawfulBEq κ]
    (k : κ) (v : α) : ∀ (l : List (κ × α)),
    l.any (fun p => p.1 == k) = true →
    lookupKey (l.map (fun p => if p.1 == k then (k, v) else p)) k = some v := by
  intro l
  induction l with
  | nil => intro h; simp at h
  | cons p t ih =>
    intro h
    cases hpk : (p.1 == k) with
    | true => simp [lookupKey, List.map_cons, List.find?_cons, hpk, beq_self_eq_true]
    | false =>
      have ht : t.any (fun q => q.1 == k) = true := by
        rw [List.any_cons, hpk] at h
        simpa using h
      simpa [lookupKey, List.map_cons, List.find?_cons, hpk] using ih ht

theorem lookup_append_single {κ α : Type} [BEq κ] [LawfulBEq κ]
    (k : κ) (v : α) : ∀ (l : List (κ × α)),
    l.any (fun p => p.1 == k) = false →
    lookupKey (l ++ [(k, v)]) k = some v := by
  intro l
  induction l with
  | nil => intro _; simp [lookupKey, List.find?_cons, beq_self_eq_true]
  | cons p t ih =>
    intro h
    cases hpk : (p.1 == k) with
    | true => rw [List.any_cons, hpk] at h; simp at h
    | false =>
      have ht : t.any (fun q => q.1 == k) = false := by
        rw [List.any_cons, hpk] at h
        simpa using h
      simpa [lookupKey, List.cons_append, List.find?_cons, hpk] using ih ht

/-- Dict assignment then lookup of the same key yields the assigned value. -/
theorem lookupKey_setKey_self {κ α : Type} [BEq κ] [LawfulBEq κ]
    (l : List (κ × α)) (k : κ) (v : α) :
    lookupKey (setKey l k v) k = some v := by
  unfold setKey
  cases h : l.any (fun p => p.1 == k) with
  | true => simpa [h] using lookup_map_update k v l h
  | false => simpa [h] using lookup_append_single k v l h

/-- Popping a key then looking it up yields none. -/
theorem lookupKey_eraseKey_self {κ α : Type} [BEq κ]
    (l : List (κ × α)) (k : κ) :
    lookupKey (eraseKey l k) k = none := by
  induction l with
  | nil => rfl
  | cons p t ih =>
    unfold eraseKey at ih ⊢
    cases hpk : (p.1 == k) with
    | true => simpa [List.filter_cons, hpk] using ih
    | false =>
      rw [List.filter_cons]
      simp [lookupKey, hpk, List.find?_cons]

/-- Lookup in a map keyed by participant ids with values a function of the
id: any listed participant resolves to the value at its id. -/
theorem lookupKey_map_value (f : Nat → Nat) :
    ∀ (l : List User) (u : User), u ∈ l →
    lookupKey (l.map (fun v => (v.id, f v.id))) u.id = some (f u.id) := by
  intro l
  induction l with
  | nil => intro u hu; cases hu
  | cons v t ih =>
    intro u hu
    cases hv : (v.id == u.id) with
    | true =>
      have hid : v.id = u.id := eq_of_beq hv
      simp [lookupKey, List.map_cons, List.find?_cons, hv, hid]
    | false =>
      have hut : u ∈ t := by
        cases hu with
        | head => simp at hv
        | tail _ h => exact h
      simpa [lookupKey, List.map_cons, List.find?_cons, hv] using ih u hut

/-- Every value stored by such a map is a value of the function. -/
theorem lookupKey_map_value_shape (f : Nat → Nat) (l : List User) (k x : Nat)
    (h : lookupKey (l.map (fun v => (v.id, f v.id))) k = some x) :
    ∃ i : Nat, x = f i := by
  unfold lookupKey at h
  cases hf : List.find? (fun p => p.1 == k) (l.map (fun v => (v.id, f v.id))) with
  | none => rw [hf] at h; cases h
  | some p =>
    rw [hf] at h
    have hmem := List.mem_of_find?_eq_some hf
    rw [List.mem_map] at hmem
    obtain ⟨v, _, hv⟩ := hmem
    refine ⟨v.id, ?_⟩
    have hpx : p.2 = f v.id := by rw [← hv]
    have hx : p.2 = x := by simpa using h
    rw [← hx]
    exact hpx

/-! ## Entry-count lemmas -/

/-- Every value the entry calculation stores is at least 1. -/
theorem calculate_entries_value_ge_one (g : Guild) (ps : List User)
    (s : Int) (ur : Bool) (cog? : Option (List (Nat × Nat))) (rpe : Nat)
    (k x : Nat) (h : lookupKey (calculate_entries g ps s ur cog? rpe) k = some x) :
    1 ≤ x := by
  unfold calculate_entries at h
  by_cases hur : ur
  · subst hur
    cases cog? with
    | none =>
      obtain ⟨i, hi⟩ := lookupKey_map_value_shape (fun _ => 1) ps k x (by simpa using h)
      omega
    | some refs =>
      obtain ⟨i, hi⟩ := lookupKey_map_value_shape (entry_value g refs rpe s) ps k x
        (by simpa using h)
      rw [hi]
      unfold entry_value
      exact Nat.le_add_right 1 _
  · have hur' : ur = false := by simpa [Bool.not_eq_true] using hur
    subst hur'
    obtain ⟨i, hi⟩ := lookupKey_map_value_shape (fun _ => 1) ps k x (by simpa using h)
    omega

/-- entries_map.get(user.id, 1) computed from the entry calculation is at
least 1. -/
theorem entriesOf_calculate_ge_one (g : Guild) (ps : List User) (s : Int)
    (ur : Bool) (cog? : Option (List (Nat × Nat))) (rpe : Nat) (u : User) :
    1 ≤ entriesOf (calculate_entries g ps s ur cog? rpe) u := by
  unfold entriesOf
  cases h : lookupKey (calculate_entries g ps s ur cog? rpe) u.id with
  | none => simp
  | some x => simpa using calculate_entries_value_ge_one g ps s ur cog? rpe u.id x h

/-! ## Weighted-pool lemmas -/

/-- Pool size is the sum of the entry counts over the participant list. -/
theorem length_weighted_pool (entries : List (Nat × Nat)) :
    ∀ ps : List User,
    (weighted_pool entries ps).length = (ps.map (entriesOf entries)).sum := by
  intro ps
  induction ps with
  | nil => rfl
  | cons u t ih =>
    simp [weighted_pool, List.length_append, List.length_replicate, ih]

/-- Multiplicity in the pool: a user occurs its entry count times per
occurrence in the participant list (so zero times for anyone filtered out,
in particular every bot). -/
theorem count_weighted_pool (entries : List (Nat × Nat)) (u : User) :
    ∀ ps : List User,
    (weighted_pool entries ps).count u = ps.count u * entriesOf entries u := by
  intro ps
  induction ps with
  | nil => simp [weighted_pool]
  | cons v t ih =>
    cases h : (v == u) with
    | true =>
      have hv : v = u := eq_of_beq h
      subst hv
      simp [weighted_pool, List.count_append, List.count_replicate, ih,
        List.count_cons, beq_self_eq_true]
      ring
    | false =>
      simp [weighted_pool, List.count_append, List.count_replicate, ih,
        List.count_cons, h]

/-- A nonempty participant list with entry counts at least 1 yields a
nonempty pool. -/
theorem weighted_pool_ne_nil (entries : List (Nat × Nat)) (ps : List User)
    (hps : ps ≠ []) (hge : ∀ u ∈ ps, 1 ≤ entriesOf entries u) :
    weighted_pool entries ps ≠ [] := by
  cases ps with
  | nil => cases hps rfl
  | cons u t =>
    have h1 : 1 ≤ entriesOf entries u := hge u (by simp)
    intro hcon
    have := congrArg List.length hcon
    simp [weighted_pool, List.length_append, List.length_replicate] at this
    omega

/-- Out of the uniformly many possible picks over the pool, exactly the
user's multiplicity select that user: the win probability of a participant
is its pool count over the pool length. -/
theorem count_range_getD (d : User) :
    ∀ (l : List User) (u : User),
    (List.range l.length).countP (fun j => l.getD j d == u) = l.count u := by
  intro l
  induction l with
  | nil => simp
  | cons x t ih =>
    intro u
    rw [List.length_cons, List.range_succ_eq_map, List.countP_cons, List.countP_map]
    have hcomp :
        ((fun j => (x :: t).getD j d == u) ∘ Nat.succ) = (fun j => t.getD j d == u) := by
      funext j
      simp [Function.comp, List.getD_cons_succ]
    rw [hcomp, ih u, List.count_cons]
    simp [List.getD_cons_zero]

/-- _execute_draw run as a rerun never writes either store. -/
theorem execute_draw_rerun_preserves_store (store : GuildStore) (name : String)
    (fetch : MsgFetch) (cog? : Option (List (Nat × Nat))) (g : Guild)
    (rpe : Nat) (pick : Nat) (now : Int) :
    (execute_draw store name true fetch cog? g rpe pick now).1 = store := by
  unfold execute_draw
  cases lookupKey store.completed name with
  | none => simp
  | some data =>
    cases fetch with
    | noChannel => simp
    | notFound => simp
    | forbidden => simp
    | ok reactions =>
      cases h2 : List.find? (fun r => r.emoji == data.emoji) reactions with
      | none => simp [h2]
      | some rxn =>
        cases hp : (draw_participants rxn).isEmpty with
        | true => simp [h2, hp]
        | false =>
          cases hq : (draw_pool g data cog? rpe rxn).isEmpty with
          | true => simp [h2, hp, hq]
          | false => simp [h2, hp, hq]

/-! ## Claims -/

/-- Claim C5: if useReferrals is false, or the referral collaborator is
unavailable, every participant is assigned exactly 1 entry.  The computation
is a total function, so it can never raise. -/
theorem claim_C5 (g : Guild) (participants : List User) (start_time : Int)
    (use_referrals : Bool) (cog? : Option (List (Nat × Nat))) (rpe : Nat)
    (h : use_referrals = false ∨ cog? = none) :
    ∀ u ∈ participants,
      lookupKey (calculate_entries g participants start_time use_referrals cog? rpe) u.id
        = some 1 := by
  intro u hu
  rcases h with h | h
  · subst h
    simpa [calculate_entries] using lookupKey_map_value (fun _ => 1) participants u hu
  · subst h
    unfold calculate_entries
    cases use_referrals with
    | false => simpa using lookupKey_map_value (fun _ => 1) participants u hu
    | true => simpa using lookupKey_map_value (fun _ => 1) participants u hu

/-- Witness for claim C5 at a concrete participant with referrals disabled. -/
theorem claim_C5_witness :
    ((false = false ∨ (none : Option (List (Nat × Nat))) = none)
     ∧ lookupKey (calculate_entries ⟨[]⟩ [⟨1, false⟩] 0 false none 5) 1 = some 1) :=
  ⟨Or.inl rfl,
   claim_C5 ⟨[]⟩ [⟨1, false⟩] 0 false none 5 (Or.inl rfl) ⟨1, false⟩ (by simp)⟩

/-- Claim C3: with referrals enabled and the ledger available, each listed
participant's entry count is 1 + floor(r / referralsPerEntry) where r counts
the participant's referral edges whose invited member's join time is at
least the lottery start; a join exactly at the start counts toward r, and a
join strictly before never does. -/
theorem claim_C3 (g : Guild) (refs : List (Nat × Nat)) (participants : List User)
    (start : Int) (rpe : Nat) (u : User) (hu : u ∈ participants) :
    lookupKey (calculate_entries g participants start true (some refs) rpe) u.id
      = some (1 + countQualifyingReferrals g refs u.id start / rpe)
    ∧ (∀ i : Nat, joinTime g i = some start →
        countQualifyingReferrals g ((i, u.id) :: refs) u.id start
          = countQualifyingReferrals g refs u.id start + 1)
    ∧ (∀ (i : Nat) (t : Int), joinTime g i = some t → t < start →
        countQualifyingReferrals g ((i, u.id) :: refs) u.id start
          = countQualifyingReferrals g refs u.id start) := by
  refine ⟨?_, ?_, ?_⟩
  · have h := lookupKey_map_value (entry_value g refs rpe start) participants u hu
    simpa [calculate_entries, entry_value] using h
  · intro i hjoin
    unfold joinTime at hjoin
    cases hm : getMember g i with
    | none => rw [hm] at hjoin; cases hjoin
    | some m =>
      rw [hm] at hjoin
      simp only [Option.some_bind] at hjoin
      unfold countQualifyingReferrals
      rw [List.countP_cons]
      simp [hm, hjoin, beq_self_eq_true]
  · intro i t hjoin hlt
    unfold joinTime at hjoin
    cases hm : getMember g i with
    | none => rw [hm] at hjoin; cases hjoin
    | some m =>
      rw [hm] at hjoin
      simp only [Option.some_bind] at hjoin
      unfold countQualifyingReferrals
      rw [List.countP_cons]
      have hnle : ¬ (start ≤ t) := by omega
      simp [hm, hjoin, hnle]

/-- Witness for claim C3: one qualifying referral whose invited member
joined exactly at the lottery start, at rate 1, gives 2 entries. -/
theorem claim_C3_witness :
    lookupKey
      (calculate_entries ⟨[⟨10, some 100⟩]⟩ [⟨1, false⟩] 100 true (some [(10, 1)]) 1) 1
      = some (1 + countQualifyingReferrals ⟨[⟨10, some 100⟩]⟩ [(10, 1)] 1 100 / 1) :=
  (claim_C3 ⟨[⟨10, some 100⟩]⟩ [(10, 1)] [⟨1, false⟩] 100 1 ⟨1, false⟩ (by simp)).1

/-- Claim C10: the lottery engine looks its referral collaborator up under
the cog name ReferralSystem while this repository registers
ReferralAccumulation, so with only this repository's cogs loaded the lookup
yields none and every participant gets exactly 1 entry even with
useReferrals enabled. -/
theorem claim_C10 (a b c : List (Nat × Nat)) (g : Guild) (ps : List User)
    (start : Int) (rpe : Nat) (u : User) (hu : u ∈ ps) :
    referralLookupName ≠ referralCogName
    ∧ get_referral_cog [(lotteryCogName, a), (referralCogName, b), (joinTrackerCogName, c)]
        = none
    ∧ lookupKey
        (calculate_entries_with_registry
          [(lotteryCogName, a), (referralCogName, b), (joinTrackerCogName, c)]
          g ps start true rpe) u.id = some 1 := by
  have h1 : (lotteryCogName == referralLookupName) = false := by decide
  have h2 : (referralCogName == referralLookupName) = false := by decide
  have h3 : (joinTrackerCogName == referralLookupName) = false := by decide
  have hnone :
      get_referral_cog [(lotteryCogName, a), (referralCogName, b), (joinTrackerCogName, c)]
        = (none : Option (List (Nat × Nat))) := by
    simp [get_referral_cog, get_cog, lookupKey, List.find?_cons, h1, h2, h3]
  refine ⟨by decide, hnone, ?_⟩
  unfold calculate_entries_with_registry
  rw [hnone]
  unfold calculate_entries
  simpa using lookupKey_map_value (fun _ => 1) ps u hu

/-- Witness for claim C10 at a concrete participant and empty ledgers. -/
theorem claim_C10_witness :
    lookupKey
      (calculate_entries_with_registry
        [(lotteryCogName, []), (referralCogName, [(5, 3)]), (joinTrackerCogName, [])]
        ⟨[]⟩ [⟨1, false⟩] 0 true 5) 1 = some 1 :=
  (claim_C10 [] [(5, 3)] [] ⟨[]⟩ [⟨1, false⟩] 0 5 ⟨1, false⟩ (by simp)).2.2

/-- Claim C4: on a non-bot member arrival with a successful invite fetch,
the credited invite is exactly the first invite in platform order whose use
count strictly exceeds its cached count (an uncached code counting as 0),
and the guild cache is replaced by the freshly fetched counts in every case,
attribution found or not.  The concrete conjunct is the spec's example:
cache code1=5, fetched code1=5 and code2=1, so code2 is attributed. -/
theorem claim_C4 (member : User) (cache : List (String × Nat)) (st : RefState)
    (invs : List Invite) (hbot : member.bot = false) :
    (on_member_join member (.ok invs) cache st).1 = refresh_cache invs
    ∧ (∀ inv : Invite,
        find_used_invite invs cache = some inv ↔
          ((lookupKey cache inv.code).getD 0 < inv.uses
           ∧ ∃ pre post, invs = pre ++ inv :: post
             ∧ ∀ x ∈ pre, ¬ (lookupKey cache x.code).getD 0 < x.uses))
    ∧ find_used_invite [⟨"code1", 5⟩, ⟨"code2", 1⟩] [("code1", 5)]
        = some ⟨"code2", 1⟩ := by
  refine ⟨?_, ?_, by decide⟩
  · unfold on_member_join
    rw [hbot]
    cases hu : find_used_invite invs cache with
    | none => simp [hu]
    | some used =>
      cases ho : st.invites.find? (fun p => p.2 == used.code) with
      | none => simp [hu, ho]
      | some p =>
        cases hz : (p.1 == 0) with
        | true => simp [hu, ho, hz]
        | false => simp [hu, ho, hz]
  · intro inv
    unfold find_used_invite
    rw [List.find?_eq_some]
    constructor
    · rintro ⟨hp, pre, post, heq, hpre⟩
      refine ⟨by simpa using hp, pre, post, heq, ?_⟩
      intro x hx
      simpa using hpre x hx
    · rintro ⟨hp, pre, post, heq, hpre⟩
      refine ⟨by simpa using hp, pre, post, heq, ?_⟩
      intro x hx
      simpa using hpre x hx

/-- Witness for claim C4: the cache is refreshed on the example arrival. -/
theorem claim_C4_witness :
    (on_member_join ⟨7, false⟩ (.ok [⟨"code1", 5⟩, ⟨"code2", 1⟩])
      [("code1", 5)] ⟨[], [], []⟩).1
      = refresh_cache [⟨"code1", 5⟩, ⟨"code2", 1⟩] :=
  (claim_C4 ⟨7, false⟩ [("code1", 5)] ⟨[], [], []⟩
    [⟨"code1", 5⟩, ⟨"code2", 1⟩] rfl).1

/-- Claim C8: a non-positive duration, or a name already present in either
bucket, is rejected synchronously with its user-visible message and neither
store changes; no active record appears and (the draw being scheduled only
after the created outcome) nothing is scheduled. -/
theorem claim_C8 (store : GuildStore) (channel_id : Nat) (duration : Int)
    (ur : Bool) (name emoji descr : String) (starter_id : Nat) (now : Int)
    (post : PostResult) :
    (duration ≤ 0 →
      create_lottery store channel_id duration ur name emoji descr starter_id now post
        = (store, .badDuration))
    ∧ (0 < duration →
        (lookupKey store.active name ≠ none ∨ lookupKey store.completed name ≠ none) →
        create_lottery store channel_id duration ur name emoji descr starter_id now post
          = (store, .duplicateName)) := by
  constructor
  · intro h
    unfold create_lottery
    rw [if_pos h]
  · intro hdur hdup
    unfold create_lottery
    rw [if_neg (by omega)]
    have hcond : ((lookupKey store.completed name).isSome
        || (lookupKey store.active name).isSome) = true := by
      rw [Bool.or_eq_true]
      rcases hdup with h | h
      · exact Or.inr (Option.ne_none_iff_isSome.mp h)
      · exact Or.inl (Option.ne_none_iff_isSome.mp h)
    rw [if_pos hcond]

/-- Witness for claim C8: duplicate active name rejected, store unchanged. -/
theorem claim_C8_witness :
    create_lottery
      ⟨[("X", { message_id := 1, channel_id := 2, emoji := "T",
                use_referrals := false, start_time := 0, end_time := 60,
                starter_id := 9, name := "X", description := "d",
                draw_results := none })], []⟩
      2 5 false "X" "T" "d" 9 0 (.ok 1)
      = (⟨[("X", { message_id := 1, channel_id := 2, emoji := "T",
                   use_referrals := false, start_time := 0, end_time := 60,
                   starter_id := 9, name := "X", description := "d",
                   draw_results := none })], []⟩, .duplicateName) :=
  (claim_C8
    ⟨[("X", { message_id := 1, channel_id := 2, emoji := "T",
              use_referrals := false, start_time := 0, end_time := 60,
              starter_id := 9, name := "X", description := "d",
              draw_results := none })], []⟩
    2 5 false "X" "T" "d" 9 0 (.ok 1)).2 (by decide) (Or.inl (by decide))

/-- Claim C9: when the stored channel no longer resolves or the message
fetch raises NotFound or Forbidden, draw and rerun are silent no-ops: the
outcome is a swallowed return and both stores are exactly as before. -/
theorem claim_C9 (store : GuildStore) (name : String) (is_rerun : Bool)
    (fetch : MsgFetch) (cog? : Option (List (Nat × Nat))) (g : Guild)
    (rpe pick : Nat) (now : Int)
    (h : fetch = .notFound ∨ fetch = .forbidden ∨ fetch = .noChannel) :
    (execute_draw store name is_rerun fetch cog? g rpe pick now).1 = store
    ∧ (rerun_lottery store name fetch cog? g rpe pick now).1 = store := by
  have hex : ∀ b : Bool, (execute_draw store name b fetch cog? g rpe pick now).1 = store := by
    intro b
    unfold execute_draw
    cases hsc : (if b = true then lookupKey store.completed name
        else lookupKey store.active name) with
    | none => simp
    | some data => rcases h with h | h | h <;> subst h <;> simp
  refine ⟨hex is_rerun, ?_⟩
  unfold rerun_lottery
  cases hn : (lookupKey store.completed name).isNone with
  | true => simp [hn]
  | false => simp [hn, hex true]

/-- Witness for claim C9: a NotFound fetch leaves a concrete store intact. -/
theorem claim_C9_witness :
    (execute_draw
      ⟨[("X", { message_id := 1, channel_id := 2, emoji := "T",
                use_referrals := false, start_time := 0, end_time := 60,
                starter_id := 9, name := "X", description := "d",
                draw_results := none })], []⟩
      "X" false .notFound none ⟨[]⟩ 5 0 0).1
      = ⟨[("X", { message_id := 1, channel_id := 2, emoji := "T",
                  use_referrals := false, start_time := 0, end_time := 60,
                  starter_id := 9, name := "X", description := "d",
                  draw_results := none })], []⟩ :=
  (claim_C9
    ⟨[("X", { message_id := 1, channel_id := 2, emoji := "T",
              use_referrals := false, start_time := 0, end_time := 60,
              starter_id := 9, name := "X", description := "d",
              draw_results := none })], []⟩
    "X" false .notFound none ⟨[]⟩ 5 0 0 (Or.inl rfl)).1

/-- Claim C7: rerun is rejected with a not-found message for a name absent
from the completed bucket, leaves both buckets (hence the stored DrawResult
and the status) unchanged whatever happens, arbitrarily often; when it runs,
the announced result is recomputed from the stored record's start_time and
use_referrals via the entry calculation and a fresh pick from the pool. -/
theorem claim_C7 (store : GuildStore) (name : String) (fetch : MsgFetch)
    (cog? : Option (List (Nat × Nat))) (g : Guild) (rpe pick : Nat) (now : Int) :
    (lookupKey store.completed name = none →
      rerun_lottery store name fetch cog? g rpe pick now = (store, .notFoundMsg))
    ∧ (rerun_lottery store name fetch cog? g rpe pick now).1 = store
    ∧ (∀ n : Nat,
        (fun s => (rerun_lottery s name fetch cog? g rpe pick now).1)^[n] store = store)
    ∧ (∀ (data : LotteryData) (reactions : List Reaction) (rxn : Reaction),
        lookupKey store.completed name = some data →
        fetch = .ok reactions →
        reactions.find? (fun r => r.emoji == data.emoji) = some rxn →
        draw_participants rxn ≠ [] →
        (rerun_lottery store name fetch cog? g rpe pick now).2
          = .ran (.winner
              { winner_id :=
                  ((draw_pool g data cog? rpe rxn).getD
                    (pick % (draw_pool g data cog? rpe rxn).length) ⟨0, false⟩).id,
                total_participants := (draw_participants rxn).length,
                total_entries := (draw_pool g data cog? rpe rxn).length,
                entries_breakdown :=
                  (draw_participants rxn).map
                    (fun u => (u.id, entriesOf (draw_entries g data cog? rpe rxn) u)),
                draw_timestamp := now })) := by
  have h2 : (rerun_lottery store name fetch cog? g rpe pick now).1 = store := by
    unfold rerun_lottery
    cases hn : (lookupKey store.completed name).isNone with
    | true => simp [hn]
    | false => simp [hn, execute_draw_rerun_preserves_store]
  refine ⟨?_, h2, ?_, ?_⟩
  · intro hc
    unfold rerun_lottery
    simp [hc]
  · intro n
    induction n with
    | zero => rfl
    | succ n ih =>
      rw [Function.iterate_succ_apply]
      show (fun s => (rerun_lottery s name fetch cog? g rpe pick now).1)^[n]
        ((rerun_lottery store name fetch cog? g rpe pick now).1) = store
      rw [h2]
      exact ih
  · intro data reactions rxn hc hf hfind hne
    subst hf
    have hpe : (draw_participants rxn).isEmpty = false := List.isEmpty_eq_false.mpr hne
    have hpool : (draw_pool g data cog? rpe rxn).isEmpty = false := by
      apply List.isEmpty_eq_false.mpr
      unfold draw_pool
      apply weighted_pool_ne_nil _ _ hne
      intro u _
      unfold draw_entries
      exact entriesOf_calculate_ge_one g (draw_participants rxn) data.start_time
        data.use_referrals cog? rpe u
    unfold rerun_lottery
    rw [hc]
    unfold execute_draw
    rw [hc]
    simp [hfind, hpe, hpool]

/-- Witness for claim C7: rerun of an unknown name on an empty store. -/
theorem claim_C7_witness :
    rerun_lottery ⟨[], []⟩ "X" .notFound none ⟨[]⟩ 5 0 0
      = (⟨[], []⟩, .notFoundMsg) :=
  (claim_C7 ⟨[], []⟩ "X" .notFound none ⟨[]⟩ 5 0 0).1 rfl

/-- Claim C6: with at least one non-bot reactor, the weighted pool contains
each user its participant multiplicity times its entry count (so each
distinct non-bot participant exactly entryCount times and every bot zero
times), each pool position is an equally likely pick and u is picked at
exactly count-many positions (probability entryCount over totalEntries),
and the announced DrawResults carries totalParticipants equal to the non-bot
reactor count and totalEntries equal to the pool length, which is the sum of
all entry counts. -/
theorem claim_C6 (store : GuildStore) (name : String) (data : LotteryData)
    (reactions : List Reaction) (rxn : Reaction) (cog? : Option (List (Nat × Nat)))
    (g : Guild) (rpe pick : Nat) (now : Int)
    (hdata : lookupKey store.active name = some data)
    (hfind : reactions.find? (fun r => r.emoji == data.emoji) = some rxn)
    (hne : draw_participants rxn ≠ [])
    (hpick : pick < (draw_pool g data cog? rpe rxn).length) :
    (∀ u : User,
      (draw_pool g data cog? rpe rxn).count u
        = (draw_participants rxn).count u
            * entriesOf (draw_entries g data cog? rpe rxn) u)
    ∧ (∀ u : User, u.bot = true → (draw_pool g data cog? rpe rxn).count u = 0)
    ∧ (∀ u : User,
        (List.range (draw_pool g data cog? rpe rxn).length).countP
          (fun j => (draw_pool g data cog? rpe rxn).getD j ⟨0, false⟩ == u)
          = (draw_pool g data cog? rpe rxn).count u)
    ∧ (draw_pool g data cog? rpe rxn).length
        = ((draw_participants rxn).map (entriesOf (draw_entries g data cog? rpe rxn))).sum
    ∧ (execute_draw store name false (.ok reactions) cog? g rpe pick now).2
        = .winner
            { winner_id := ((draw_pool g data cog? rpe rxn).getD pick ⟨0, false⟩).id,
              total_participants := (draw_participants rxn).length,
              total_entries := (draw_pool g data cog? rpe rxn).length,
              entries_breakdown :=
                (draw_participants rxn).map
                  (fun u => (u.id, entriesOf (draw_entries g data cog? rpe rxn) u)),
              draw_timestamp := now } := by
  have hcount : ∀ u : User,
      (draw_pool g data cog? rpe rxn).count u
        = (draw_participants rxn).count u
            * entriesOf (draw_entries g data cog? rpe rxn) u := by
    intro u
    unfold draw_pool
    exact count_weighted_pool _ u _
  refine ⟨hcount, ?_, ?_, ?_, ?_⟩
  · intro u hbot
    rw [hcount u]
    have hz : (draw_participants rxn).count u = 0 := by
      rw [List.count_eq_zero]
      intro hmem
      unfold draw_participants at hmem
      rw [List.mem_filter] at hmem
      simp [hbot] at hmem
    rw [hz, Nat.zero_mul]
  · intro u
    exact count_range_getD ⟨0, false⟩ _ u
  · unfold draw_pool
    exact length_weighted_pool _ _
  · have hpe : (draw_participants rxn).isEmpty = false := List.isEmpty_eq_false.mpr hne
    have hpool : (draw_pool g data cog? rpe rxn).isEmpty = false := by
      apply List.isEmpty_eq_false.mpr
      unfold draw_pool
      apply weighted_pool_ne_nil _ _ hne
      intro u _
      unfold draw_entries
      exact entriesOf_calculate_ge_one g (draw_participants rxn) data.start_time
        data.use_referrals cog? rpe u
    have hmod : pick % (draw_pool g data cog? rpe rxn).length = pick :=
      Nat.mod_eq_of_lt hpick
    unfold execute_draw
    rw [hdata]
    simp [hfind, hpe, hpool, hmod]

/-- Witness for claim C6: three humans and one bot with referrals disabled
announce totalParticipants 3 and totalEntries 3. -/
theorem claim_C6_witness :
    (execute_draw
      ⟨[("X", { message_id := 1, channel_id := 2, emoji := "T",
                use_referrals := false, start_time := 0, end_time := 60,
                starter_id := 9, name := "X", description := "d",
                draw_results := none })], []⟩
      "X" false
      (.ok [⟨"T", [⟨1, false⟩, ⟨2, false⟩, ⟨3, false⟩, ⟨4, true⟩]⟩])
      none ⟨[]⟩ 5 0 0).2
      = .winner
          { winner_id := 1, total_participants := 3, total_entries := 3,
            entries_breakdown := [(1, 1), (2, 1), (3, 1)],
            draw_timestamp := 0 } := by
  have h := (claim_C6
    ⟨[("X", { message_id := 1, channel_id := 2, emoji := "T",
              use_referrals := false, start_time := 0, end_time := 60,
              starter_id := 9, name := "X", description := "d",
              draw_results := none })], []⟩
    "X"
    { message_id := 1, channel_id := 2, emoji := "T",
      use_referrals := false, start_time := 0, end_time := 60,
      starter_id := 9, name := "X", description := "d", draw_results := none }
    [⟨"T", [⟨1, false⟩, ⟨2, false⟩, ⟨3, false⟩, ⟨4, true⟩]⟩]
    ⟨"T", [⟨1, false⟩, ⟨2, false⟩, ⟨3, false⟩, ⟨4, true⟩]⟩
    none ⟨[]⟩ 5 0 0
    (by decide) (by decide) (by decide) (by decide)).2.2.2.2
  rw [h]
  decide

/-- Claim C1 counterexample: a zero-participant draw (the only reactor is a
bot) on an active lottery named X leaves BOTH buckets empty — the record is
popped from the active store but, _move_to_completed receiving no
draw_results, it is never inserted into the completed store, contradicting
the claim that the name is then present in the Completed store. -/
theorem claim_C1_counterexample :
    (execute_draw
      ⟨[("X", { message_id := 1, channel_id := 2, emoji := "T",
                use_referrals := false, start_time := 0, end_time := 60,
                starter_id := 9, name := "X", description := "d",
                draw_results := none })], []⟩
      "X" false (.ok [⟨"T", [⟨4, true⟩]⟩]) none ⟨[]⟩ 5 0 0).1
      = ⟨[], []⟩ := by
  decide

/-- Claim C1 (amended): a zero-participant draw of an active lottery
removes the name from the Active store but records nothing in the Completed
store, which stays exactly as before (the record is discarded; no
DrawResult anywhere), and announces the empty result. -/
theorem claim_C1 (store : GuildStore) (name : String) (data : LotteryData)
    (reactions : List Reaction) (cog? : Option (List (Nat × Nat))) (g : Guild)
    (rpe pick : Nat) (now : Int)
    (hdata : lookupKey store.active name = some data)
    (hzero : reactions.find? (fun r => r.emoji == data.emoji) = none
             ∨ ∃ rxn, reactions.find? (fun r => r.emoji == data.emoji) = some rxn
                 ∧ draw_participants rxn = []) :
    lookupKey (execute_draw store name false (.ok reactions) cog? g rpe pick now).1.active
        name = none
    ∧ (execute_draw store name false (.ok reactions) cog? g rpe pick now).1.completed
        = store.completed
    ∧ ((execute_draw store name false (.ok reactions) cog? g rpe pick now).2
          = .noReaction
       ∨ (execute_draw store name false (.ok reactions) cog? g rpe pick now).2
          = .noHumans) := by
  have hmove : move_to_completed store name none
      = { store with active := eraseKey store.active name } := by
    unfold move_to_completed
    rw [hdata]
  rcases hzero with h | ⟨rxn, hfind, hp⟩
  · unfold execute_draw
    rw [hdata]
    simp [h, hmove, lookupKey_eraseKey_self]
  · have hpe : (draw_participants rxn).isEmpty = true := by
      rw [List.isEmpty_iff]
      exact hp
    unfold execute_draw
    rw [hdata]
    simp [hfind, hpe, hmove, lookupKey_eraseKey_self]

/-- Witness for amended claim C1 at the counterexample input. -/
theorem claim_C1_witness :
    lookupKey
      (execute_draw
        ⟨[("X", { message_id := 1, channel_id := 2, emoji := "T",
                  use_referrals := false, start_time := 0, end_time := 60,
                  starter_id := 9, name := "X", description := "d",
                  draw_results := none })], []⟩
        "X" false (.ok [⟨"T", [⟨4, true⟩]⟩]) none ⟨[]⟩ 5 0 0).1.active "X"
      = none :=
  (claim_C1
    ⟨[("X", { message_id := 1, channel_id := 2, emoji := "T",
              use_referrals := false, start_time := 0, end_time := 60,
              starter_id := 9, name := "X", description := "d",
              draw_results := none })], []⟩
    "X"
    { message_id := 1, channel_id := 2, emoji := "T",
      use_referrals := false, start_time := 0, end_time := 60,
      starter_id := 9, name := "X", description := "d", draw_results := none }
    [⟨"T", [⟨4, true⟩]⟩] none ⟨[]⟩ 5 0 0
    (by decide)
    (Or.inr ⟨⟨"T", [⟨4, true⟩]⟩, by decide, by decide⟩)).1

/-- Claim C2 counterexample: user 3 owns invite code abc; user 7 joins
twice through it (a rejoin).  on_member_join attributes both arrivals:
after the second event user 3's point tally is 2, not 1 — the second
arrival is not ignored, contradicting first-attribution-wins with exactly
one PointTally increment.  (The referral edge itself, keyed by the invited
user, does end up single: [(7, 3)].) -/
theorem claim_C2_counterexample :
    lookupKey
      (on_member_join ⟨7, false⟩ (.ok [⟨"abc", 2⟩])
        (on_member_join ⟨7, false⟩ (.ok [⟨"abc", 1⟩]) [("abc", 0)]
          ⟨[(3, "abc")], [], []⟩).1
        (on_member_join ⟨7, false⟩ (.ok [⟨"abc", 1⟩]) [("abc", 0)]
          ⟨[(3, "abc")], [], []⟩).2).2.points 3 = some 2
    ∧ ¬ lookupKey
        (on_member_join ⟨7, false⟩ (.ok [⟨"abc", 2⟩])
          (on_member_join ⟨7, false⟩ (.ok [⟨"abc", 1⟩]) [("abc", 0)]
            ⟨[(3, "abc")], [], []⟩).1
          (on_member_join ⟨7, false⟩ (.ok [⟨"abc", 1⟩]) [("abc", 0)]
            ⟨[(3, "abc")], [], []⟩).2).2.points 3 = some 1
    ∧ (on_member_join ⟨7, false⟩ (.ok [⟨"abc", 2⟩])
        (on_member_join ⟨7, false⟩ (.ok [⟨"abc", 1⟩]) [("abc", 0)]
          ⟨[(3, "abc")], [], []⟩).1
        (on_member_join ⟨7, false⟩ (.ok [⟨"abc", 1⟩]) [("abc", 0)]
          ⟨[(3, "abc")], [], []⟩).2).2.referrals = [(7, 3)] := by
  refine ⟨by decide, by decide, by decide⟩

/-- Claim C2 (amended): the referral edge is keyed by the invited user, so
at most one edge entry exists per invited user, but first attribution does
NOT win — every attributed arrival, including one for a user whose inviter
is already recorded, overwrites the edge with the new attribution and
increments the credited inviter's tally by one more; two attributed arrival
events thus yield one ReferralEdge (the latest) and two PointTally
increments. -/
theorem claim_C2 (member : User) (invs : List Invite)
    (cache : List (String × Nat)) (st : RefState) (used : Invite)
    (p : Nat × String)
    (hbot : member.bot = false)
    (hused : find_used_invite invs cache = some used)
    (howner : st.invites.find? (fun q => q.2 == used.code) = some p)
    (hnz : (p.1 == 0) = false) :
    lookupKey (on_member_join member (.ok invs) cache st).2.referrals member.id
      = some p.1
    ∧ lookupKey (on_member_join member (.ok invs) cache st).2.points p.1
      = some ((lookupKey st.points p.1).getD 0 + 1) := by
  unfold on_member_join
  rw [hbot]
  simp [hused, howner, hnz, lookupKey_setKey_self]

/-- Witness for amended claim C2: the second (rejoin) arrival of the
counterexample overwrites the edge and increments the tally to 2. -/
theorem claim_C2_witness :
    lookupKey
      (on_member_join ⟨7, false⟩ (.ok [⟨"abc", 2⟩]) [("abc", 1)]
        ⟨[(3, "abc")], [(7, 3)], [(3, 1)]⟩).2.points 3 = some 2 :=
  (claim_C2 ⟨7, false⟩ [⟨"abc", 2⟩] [("abc", 1)]
    ⟨[(3, "abc")], [(7, 3)], [(3, 1)]⟩ ⟨"abc", 2⟩ (3, "abc")
    rfl (by decide) (by decide) (by decide)).2

end RedCogs
